import Mathlib

/-!
Verification of the AOP method-wrapping helper of `src/aop.js` against its
specification.

The embedding is a shallow one: JavaScript values are the inductive `Value`
(with `undef` for `undefined`, `vnull` for `null`, defunctionalised
callables in `Callable`, plain objects as association lists of own
properties, and the library's shared error constants as `errv` values).
Method invocation is the fuel-bounded evaluator `applyFn`, which also
returns the list of call events (callee, receiver, argument list) in the
order the calls started, so that claims about *which* functions get invoked,
with which arguments and in which order, can be stated as facts about the
trace.  The four wrap operations `AOP.before`, `AOP.after`, `AOP.handle`
and `AOP.around` and their common validator `AOP.check` are translated
line by line from the source; in-place mutation of the target object is
modelled by returning the updated target alongside the returned old member,
and a thrown validation error by `Except.error`.
-/

namespace JsAop

/-- The kinds of error objects the model distinguishes: the four shared
error constants declared by the `AOP` namespace, plus the host language's
`TypeError` (raised e.g. when dereferencing `null` or calling a
non-function). -/
inductive ErrKind where
  | invalidObject
  | invalidMethod
  | invalidAspect
  | invalidProceed
  | typeError
  deriving DecidableEq, Repr

mutual

/-- A JavaScript value: `undefined`, `null`, primitives, arrays, plain
objects (own properties as an association list), error objects, and
function values. -/
inductive Value where
  | undef
  | vnull
  | bool (b : Bool)
  | num (n : Int)
  | str (s : String)
  | arr (elems : List Value)
  | object (fields : List (String × Value))
  | errv (k : ErrKind)
  | fn (c : Callable)
  deriving Repr

/-- A callable: either one of a fixed stock of primitive behaviours, or
one of the four wrapper closures the library installs.  Each wrapper
closure captures the previous member value `old` (any `Value`: the source
only checks it is defined, not that it is callable) and the advice
function `adv`. -/
inductive Callable where
  | prim (p : Prim)
  | beforeWrap (old : Value) (adv : Value)
  | afterWrap (old : Value) (adv : Value)
  | handleWrap (old : Value) (adv : Value)
  | aroundWrap (old : Value) (adv : Value)
  deriving Repr

/-- Primitive function behaviours used to populate targets and advices:
constant functions, functions that throw a fixed value, the spec's
`greet`/`toUpperCase` example pair, and an advice that applies its first
argument to the argument list carried by its second argument (the shape an
`around` advice uses to invoke the original). -/
inductive Prim where
  | constFn (v : Value)
  | throwFn (e : Value)
  | greet
  | upper
  | callArg0
  deriving Repr

end

/-- One call event of an execution trace: the function value invoked, the
receiver (`this`), and the argument list. -/
structure CallEvent where
  callee : Value
  recv : Value
  args : List Value
  deriving Repr

/-- Outcome of invoking a value: normal return, a thrown value, or fuel
exhaustion (modelling divergence). -/
inductive Res where
  | ret (v : Value)
  | thrown (e : Value)
  | diverge
  deriving Repr

/-- ASCII uppercase of a string, character by character (the behaviour of
`toUpperCase` on the spec example's inputs). -/
def upperStr (s : String) : String := ⟨s.data.map Char.toUpper⟩

/-- The JavaScript `typeof` operator on the modelled values.  Note that
`typeof null` is `"object"`. -/
def typeofV : Value → String
  | .undef => "undefined"
  | .vnull => "object"
  | .bool _ => "boolean"
  | .num _ => "number"
  | .str _ => "string"
  | .arr _ => "object"
  | .object _ => "object"
  | .errv _ => "object"
  | .fn _ => "function"

/-- `v === undefined`. -/
def isUndef : Value → Bool
  | .undef => true
  | _ => false

/-- Truthiness test `!method` for the method-name argument: `true` for an
absent (`undefined`) name and for the empty string. -/
def nameFalsy : Option String → Bool
  | none => true
  | some s => s = ""

/-- Own-property lookup in an object's field list (first binding wins);
a missing property reads as `undefined`. -/
def lookupField : List (String × Value) → String → Value
  | [], _ => .undef
  | (k, v) :: rest, m => if k = m then v else lookupField rest m

/-- Own-property assignment: overwrite the first binding of the key, or
append a new binding. -/
def setField : List (String × Value) → String → Value → List (String × Value)
  | [], m, v => [(m, v)]
  | (k, w) :: rest, m, v =>
      if k = m then (m, v) :: rest else (k, w) :: setField rest m v

/-- Property read `obj[m]`: dereferencing `null` or `undefined` throws a
host `TypeError`; an object yields its own property (or `undefined`);
other values yield `undefined` for the names the library manipulates. -/
def getProp : Value → String → Except Value Value
  | .vnull, _ => .error (.errv .typeError)
  | .undef, _ => .error (.errv .typeError)
  | .object fields, m => .ok (lookupField fields m)
  | _, _ => .ok .undef

namespace AOP

/-- `AOP.InvalidObject`, thrown when the target is not an object. -/
def InvalidObject : Value := .errv .invalidObject

/-- `AOP.InvalidMethod`, thrown when the method to be changed does not
exist. -/
def InvalidMethod : Value := .errv .invalidMethod

/-- `AOP.InvalidAspect`, thrown when the advice is not a function. -/
def InvalidAspect : Value := .errv .invalidAspect

/-- `AOP.InvalidProceed`, declared by the source but thrown nowhere. -/
def InvalidProceed : Value := .errv .invalidProceed

/-- The private validator `check(obj, method, fun)`:
`typeof obj !== 'object'` throws `InvalidObject`;
`typeof fun !== 'function'` throws `InvalidAspect`;
`!method || obj[method] === undefined` throws `InvalidMethod`
(the `||` short-circuits, so `obj[method]` is only read for a truthy
name, and that read itself may throw a host `TypeError`). -/
def check (obj : Value) (method : Option String) (f : Value) :
    Except Value Unit :=
  if typeofV obj ≠ "object" then .error InvalidObject
  else if typeofV f ≠ "function" then .error InvalidAspect
  else if nameFalsy method then .error InvalidMethod
  else
    match getProp obj (method.getD "") with
    | .error e => .error e
    | .ok v => if isUndef v then .error InvalidMethod else .ok ()

/-- `AOP.before(obj, method, fun)`: validate, capture `old = obj[method]`,
install the `beforeWrap` closure at `obj[method]`, return `old`.  The
result pairs the mutated target with the returned old member; the final
fallback arm is unreachable because `check` only succeeds on a plain
object with a present, non-empty method name. -/
def before (obj : Value) (method : Option String) (f : Value) :
    Except Value (Value × Value) :=
  match check obj method f with
  | .error e => .error e
  | .ok _ =>
    match obj, method with
    | .object fields, some m =>
      let old := lookupField fields m
      .ok (.object (setField fields m (.fn (.beforeWrap old f))), old)
    | _, _ => .error (.errv .typeError)

/-- `AOP.after(obj, method, fun)`: as `before`, installing the
`afterWrap` closure. -/
def after (obj : Value) (method : Option String) (f : Value) :
    Except Value (Value × Value) :=
  match check obj method f with
  | .error e => .error e
  | .ok _ =>
    match obj, method with
    | .object fields, some m =>
      let old := lookupField fields m
      .ok (.object (setField fields m (.fn (.afterWrap old f))), old)
    | _, _ => .error (.errv .typeError)

/-- `AOP.handle(obj, method, fun)`: as `before`, installing the
`handleWrap` closure. -/
def handle (obj : Value) (method : Option String) (f : Value) :
    Except Value (Value × Value) :=
  match check obj method f with
  | .error e => .error e
  | .ok _ =>
    match obj, method with
    | .object fields, some m =>
      let old := lookupField fields m
      .ok (.object (setField fields m (.fn (.handleWrap old f))), old)
    | _, _ => .error (.errv .typeError)

/-- `AOP.around(obj, method, fun)`: as `before`, installing the
`aroundWrap` closure. -/
def around (obj : Value) (method : Option String) (f : Value) :
    Except Value (Value × Value) :=
  match check obj method f with
  | .error e => .error e
  | .ok _ =>
    match obj, method with
    | .object fields, some m =>
      let old := lookupField fields m
      .ok (.object (setField fields m (.fn (.aroundWrap old f))), old)
    | _, _ => .error (.errv .typeError)

end AOP

/-- The argument-list dispatch of the `before` wrapper on the advice's
return value `tmp`: `undefined` keeps the original arguments, an `Array`
becomes the new argument list, and any other value is passed as the sole
argument. -/
def beforeArgsOf (tmp : Value) (args : List Value) : List Value :=
  match tmp with
  | .undef => args
  | .arr xs => xs
  | v => [v]

/-- Fuel-bounded invocation `applyFn fuel f recv args`: invoke the value
`f` with receiver `recv` and argument list `args`, returning the outcome
together with the trace of call events in start order.  Invoking a
non-function throws a host `TypeError` (and logs no event); each genuine
call logs its own event before the events of its inner calls.  The wrapper
closures follow the source bodies literally:
`beforeWrap`: `tmp = fun.apply(this, arguments)`, then dispatch
on `tmp` (`undefined` keeps the arguments, an `Array` becomes the new
argument list, any other value is passed as the sole argument) into
`old`, whose result is returned;
`afterWrap`: call `old`, then return `fun.apply(this, [tmp])`;
`handleWrap`: call `old`; on a throw, call `fun.apply(this, [e, arguments])`
and return `undefined` (a throw from the advice itself propagates); on a
normal return, return `undefined`;
`aroundWrap`: return `fun.apply(this, [old, arguments])`. -/
def applyFn : Nat → Value → Value → List Value → Res × List CallEvent
  | 0, _, _, _ => (.diverge, [])
  | fuel+1, .fn c, recv, args =>
    let inner : Res × List CallEvent :=
      match c with
      | .prim (.constFn v) => (.ret v, [])
      | .prim (.throwFn e) => (.thrown e, [])
      | .prim .greet =>
        (match args.headD .undef with
         | .str s => .ret (.str ("Hello, " ++ s))
         | _ => .ret .undef, [])
      | .prim .upper =>
        (match args.headD .undef with
         | .str s => .ret (.str (upperStr s))
         | _ => .ret .undef, [])
      | .prim .callArg0 =>
        let orig := args.headD .undef
        let rest :=
          match args.getD 1 .undef with
          | .arr xs => xs
          | _ => []
        applyFn fuel orig recv rest
      | .beforeWrap old adv =>
        match applyFn fuel adv recv args with
        | (.ret tmp, t1) =>
          let next := applyFn fuel old recv (beforeArgsOf tmp args)
          (next.1, t1 ++ next.2)
        | (r, t1) => (r, t1)
      | .afterWrap old adv =>
        match applyFn fuel old recv args with
        | (.ret tmp, t1) =>
          let next := applyFn fuel adv recv [tmp]
          (next.1, t1 ++ next.2)
        | (r, t1) => (r, t1)
      | .handleWrap old adv =>
        match applyFn fuel old recv args with
        | (.thrown e, t1) =>
          let next := applyFn fuel adv recv [e, .arr args]
          (match next.1 with
           | .ret _ => .ret .undef
           | r => r, t1 ++ next.2)
        | (.ret _, t1) => (.ret .undef, t1)
        | (.diverge, t1) => (.diverge, t1)
      | .aroundWrap old adv =>
        applyFn fuel adv recv [old, .arr args]
    (inner.1, ⟨.fn c, recv, args⟩ :: inner.2)
  | _+1, _, _, _ => (.thrown (.errv .typeError), [])

/-- Is this value the shared `AOP.InvalidProceed` error constant? -/
def isProceedErr : Value → Bool
  | .errv .invalidProceed => true
  | _ => false

/-- Does this value belong to the library's declared error taxonomy (the
four shared error constants)?  The host `TypeError` does not. -/
def inTaxonomy : Value → Bool
  | .errv .invalidObject => true
  | .errv .invalidMethod => true
  | .errv .invalidAspect => true
  | .errv .invalidProceed => true
  | _ => false

mutual

/-- `vOk v`: no `throwFn` primitive reachable inside `v` throws the
`AOP.InvalidProceed` constant.  Values built by the library and by the
modelled primitive behaviours from such values stay `vOk`. -/
def vOk : Value → Bool
  | .undef => true
  | .vnull => true
  | .bool _ => true
  | .num _ => true
  | .str _ => true
  | .errv _ => true
  | .arr xs => vOkList xs
  | .object fs => fieldsOk fs
  | .fn c => cOk c

/-- `cOk`: componentwise `vOk` over a callable. -/
def cOk : Callable → Bool
  | .prim p => pOk p
  | .beforeWrap old adv => vOk old && vOk adv
  | .afterWrap old adv => vOk old && vOk adv
  | .handleWrap old adv => vOk old && vOk adv
  | .aroundWrap old adv => vOk old && vOk adv

/-- `pOk`: a `throwFn` never carries the `InvalidProceed` constant. -/
def pOk : Prim → Bool
  | .constFn v => vOk v
  | .throwFn e => !isProceedErr e && vOk e
  | .greet => true
  | .upper => true
  | .callArg0 => true

/-- `vOk` over a list of values. -/
def vOkList : List Value → Bool
  | [] => true
  | v :: vs => vOk v && vOkList vs

/-- `vOk` over an object's field list. -/
def fieldsOk : List (String × Value) → Bool
  | [] => true
  | (_, v) :: fs => vOk v && fieldsOk fs

end

/-- `resOk`: a call outcome neither is a throw of `InvalidProceed` nor
returns or throws a value hiding an `InvalidProceed`-throwing primitive. -/
def resOk : Res → Bool
  | .ret v => vOk v
  | .thrown e => !isProceedErr e && vOk e
  | .diverge => true

/-- Index of the first event satisfying `p` in a trace. -/
def idxOfP (p : CallEvent → Bool) : List CallEvent → Option Nat
  | [] => none
  | e :: t => if p e then some 0 else (idxOfP p t).map (· + 1)

/-- Does this event call the `upper` primitive (the first advice of the
chained-`before` counterexample)? -/
def calleeIsUpper (ev : CallEvent) : Bool :=
  match ev.callee with
  | .fn (.prim .upper) => true
  | _ => false

/-- Does this event call the `greet` primitive (the second advice of the
chained-`before` counterexample)? -/
def calleeIsGreet (ev : CallEvent) : Bool :=
  match ev.callee with
  | .fn (.prim .greet) => true
  | _ => false

/-! ## Helper lemmas about the evaluator -/

/-- A genuine function call logs its own event first. -/
theorem applyFn_fn_trace_head (fuel : Nat) (c : Callable) (recv : Value)
    (args : List Value) :
    (applyFn (fuel+1) (.fn c) recv args).2.head? = some ⟨.fn c, recv, args⟩ := by
  simp [applyFn]

/-- A call that returns normally was a call of a function value, so its
trace starts with the corresponding event. -/
theorem trace_head_of_ret (fuel : Nat) (f recv : Value) (args : List Value)
    (v : Value) (t : List CallEvent)
    (h : applyFn (fuel+1) f recv args = (.ret v, t)) :
    t.head? = some ⟨f, recv, args⟩ := by
  cases f <;> simp [applyFn] at h
  case fn c =>
    obtain ⟨-, h2⟩ := h
    subst h2
    rfl

/-- One step of a `beforeWrap` invocation whose advice returns `tmp`. -/
theorem beforeWrap_step (fuel : Nat) (old adv recv : Value) (args : List Value)
    (tmp : Value) (t1 : List CallEvent)
    (hadv : applyFn (fuel+1) adv recv args = (.ret tmp, t1)) :
    applyFn (fuel+1+1) (.fn (.beforeWrap old adv)) recv args =
      ((applyFn (fuel+1) old recv (beforeArgsOf tmp args)).1,
       ⟨.fn (.beforeWrap old adv), recv, args⟩ ::
         (t1 ++ (applyFn (fuel+1) old recv (beforeArgsOf tmp args)).2)) := by
  simp [applyFn, hadv]

/-- One step of an `afterWrap` invocation whose original returns `v`. -/
theorem afterWrap_step (fuel : Nat) (old adv recv : Value) (args : List Value)
    (v : Value) (t1 : List CallEvent)
    (hold : applyFn (fuel+1) old recv args = (.ret v, t1)) :
    applyFn (fuel+1+1) (.fn (.afterWrap old adv)) recv args =
      ((applyFn (fuel+1) adv recv [v]).1,
       ⟨.fn (.afterWrap old adv), recv, args⟩ ::
         (t1 ++ (applyFn (fuel+1) adv recv [v]).2)) := by
  simp [applyFn, hold]

/-- One step of a `handleWrap` invocation whose original throws `e`. -/
theorem handleWrap_step_thrown (fuel : Nat) (old adv recv : Value)
    (args : List Value) (e : Value) (t1 : List CallEvent)
    (hold : applyFn (fuel+1) old recv args = (.thrown e, t1)) :
    applyFn (fuel+1+1) (.fn (.handleWrap old adv)) recv args =
      ((match (applyFn (fuel+1) adv recv [e, .arr args]).1 with
        | .ret _ => Res.ret .undef
        | r => r),
       ⟨.fn (.handleWrap old adv), recv, args⟩ ::
         (t1 ++ (applyFn (fuel+1) adv recv [e, .arr args]).2)) := by
  simp [applyFn, hold]

/-- One step of a `handleWrap` invocation whose original returns. -/
theorem handleWrap_step_ret (fuel : Nat) (old adv recv : Value)
    (args : List Value) (v : Value) (t1 : List CallEvent)
    (hold : applyFn (fuel+1) old recv args = (.ret v, t1)) :
    applyFn (fuel+1+1) (.fn (.handleWrap old adv)) recv args =
      (.ret .undef, ⟨.fn (.handleWrap old adv), recv, args⟩ :: t1) := by
  simp [applyFn, hold]

/-- One step of an `aroundWrap` invocation: hand the captured original and
the argument list to the advice and return its outcome. -/
theorem aroundWrap_step (fuel : Nat) (old adv recv : Value) (args : List Value) :
    applyFn (fuel+1) (.fn (.aroundWrap old adv)) recv args =
      ((applyFn fuel adv recv [old, .arr args]).1,
       ⟨.fn (.aroundWrap old adv), recv, args⟩ ::
         (applyFn fuel adv recv [old, .arr args]).2) := by
  simp [applyFn]

/-! ## Helper lemmas about validation -/

/-- A non-object target fails `check` with `InvalidObject`. -/
theorem check_error_object (obj : Value) (method : Option String) (f : Value)
    (h : typeofV obj ≠ "object") :
    AOP.check obj method f = .error AOP.InvalidObject := by
  simp [AOP.check, h]

/-- A non-callable advice on an object target fails `check` with
`InvalidAspect`. -/
theorem check_error_aspect (obj : Value) (method : Option String) (f : Value)
    (hobj : typeofV obj = "object") (hf : typeofV f ≠ "function") :
    AOP.check obj method f = .error AOP.InvalidAspect := by
  simp [AOP.check, hobj, hf]

/-- A falsy (absent or empty) method name on an object target with a
callable advice fails `check` with `InvalidMethod`. -/
theorem check_error_falsy (obj : Value) (method : Option String) (f : Value)
    (hobj : typeofV obj = "object") (hf : typeofV f = "function")
    (hm : nameFalsy method = true) :
    AOP.check obj method f = .error AOP.InvalidMethod := by
  simp [AOP.check, hobj, hf, hm]

/-- An undefined member under a truthy method name fails `check` with
`InvalidMethod`. -/
theorem check_error_undef_member (obj : Value) (s : String) (f : Value)
    (hobj : typeofV obj = "object") (hf : typeofV f = "function")
    (hs : s ≠ "") (hget : getProp obj s = .ok .undef) :
    AOP.check obj (some s) f = .error AOP.InvalidMethod := by
  simp [AOP.check, hobj, hf, nameFalsy, hs, hget, isUndef]

/-- When `check` succeeds, the target is a plain object, the method name
is present and non-empty, the advice is callable, and the named member is
defined. -/
theorem check_ok_shape (obj : Value) (method : Option String) (f : Value)
    (h : AOP.check obj method f = .ok ()) :
    (∃ fields, obj = .object fields) ∧
    (∃ s, method = some s ∧ s ≠ "") ∧
    typeofV f = "function" ∧
    (∀ fields s, obj = .object fields → method = some s →
      isUndef (lookupField fields s) = false) := by
  by_cases hobj : typeofV obj = "object"
  · by_cases hf : typeofV f = "function"
    · by_cases hm : nameFalsy method = true
      · rw [check_error_falsy obj method f hobj hf hm] at h
        exact absurd h (by simp)
      · obtain ⟨s, hsome, hs⟩ : ∃ s, method = some s ∧ s ≠ "" := by
          cases method with
          | none => simp [nameFalsy] at hm
          | some s =>
            refine ⟨s, rfl, ?_⟩
            simpa [nameFalsy] using hm
        subst hsome
        cases obj with
        | object fields =>
          refine ⟨⟨fields, rfl⟩, ⟨s, rfl, hs⟩, hf, ?_⟩
          intro fields2 s2 hfe hse
          have hfeq : fields = fields2 := by injection hfe
          have hseq : s = s2 := by injection hse
          subst hfeq
          subst hseq
          by_cases hu : isUndef (lookupField fields s) = true
          · exfalso
            rw [show AOP.check (Value.object fields) (some s) f
                  = .error AOP.InvalidMethod from by
                simp [AOP.check, hobj, hf, nameFalsy, hs, getProp, hu]] at h
            exact absurd h (by simp)
          · simpa using hu
        | vnull => simp [AOP.check, hobj, hf, nameFalsy, hs, getProp] at h
        | undef => simp [typeofV] at hobj
        | bool b => simp [typeofV] at hobj
        | num n => simp [typeofV] at hobj
        | str s2 => simp [typeofV] at hobj
        | arr xs => simp [AOP.check, hobj, hf, nameFalsy, hs, getProp, isUndef] at h
        | errv k => simp [AOP.check, hobj, hf, nameFalsy, hs, getProp, isUndef] at h
        | fn c => simp [typeofV] at hobj
    · rw [check_error_aspect obj method f hobj hf] at h
      exact absurd h (by simp)
  · rw [check_error_object obj method f hobj] at h
    exact absurd h (by simp)

/-- Reading back the member just assigned yields the assigned value. -/
theorem lookupField_setField_self (fields : List (String × Value)) (m : String)
    (v : Value) : lookupField (setField fields m v) m = v := by
  induction fields with
  | nil => simp [setField, lookupField]
  | cons kv rest ih =>
    obtain ⟨k, w⟩ := kv
    by_cases hk : k = m
    · simp [setField, lookupField, hk]
    · simp [setField, lookupField, hk, ih]

/-- `AOP.before` raises exactly the errors its validator raises. -/
theorem before_error_iff (obj : Value) (method : Option String) (f : Value)
    (e : Value) :
    AOP.before obj method f = .error e ↔ AOP.check obj method f = .error e := by
  cases hc : AOP.check obj method f with
  | error e2 => unfold AOP.before; rw [hc]; simp
  | ok u =>
    cases u
    obtain ⟨⟨fields, rfl⟩, ⟨s, rfl, -⟩, -, -⟩ := check_ok_shape _ _ _ hc
    unfold AOP.before
    rw [hc]
    simp

/-- `AOP.after` raises exactly the errors its validator raises. -/
theorem after_error_iff (obj : Value) (method : Option String) (f : Value)
    (e : Value) :
    AOP.after obj method f = .error e ↔ AOP.check obj method f = .error e := by
  cases hc : AOP.check obj method f with
  | error e2 => unfold AOP.after; rw [hc]; simp
  | ok u =>
    cases u
    obtain ⟨⟨fields, rfl⟩, ⟨s, rfl, -⟩, -, -⟩ := check_ok_shape _ _ _ hc
    unfold AOP.after
    rw [hc]
    simp

/-- `AOP.handle` raises exactly the errors its validator raises. -/
theorem handle_error_iff (obj : Value) (method : Option String) (f : Value)
    (e : Value) :
    AOP.handle obj method f = .error e ↔ AOP.check obj method f = .error e := by
  cases hc : AOP.check obj method f with
  | error e2 => unfold AOP.handle; rw [hc]; simp
  | ok u =>
    cases u
    obtain ⟨⟨fields, rfl⟩, ⟨s, rfl, -⟩, -, -⟩ := check_ok_shape _ _ _ hc
    unfold AOP.handle
    rw [hc]
    simp

/-- `AOP.around` raises exactly the errors its validator raises. -/
theorem around_error_iff (obj : Value) (method : Option String) (f : Value)
    (e : Value) :
    AOP.around obj method f = .error e ↔ AOP.check obj method f = .error e := by
  cases hc : AOP.check obj method f with
  | error e2 => unfold AOP.around; rw [hc]; simp
  | ok u =>
    cases u
    obtain ⟨⟨fields, rfl⟩, ⟨s, rfl, -⟩, -, -⟩ := check_ok_shape _ _ _ hc
    unfold AOP.around
    rw [hc]
    simp

/-- Anatomy of a successful `AOP.before`: the target was a plain object,
the name present and non-empty, the returned value is the previously
installed member (which was defined), and the new member is the
`beforeWrap` closure over exactly that member and the advice. -/
theorem before_ok_shape (obj : Value) (method : Option String) (f : Value)
    (obj2 ret : Value) (h : AOP.before obj method f = .ok (obj2, ret)) :
    ∃ fields s, obj = .object fields ∧ method = some s ∧ s ≠ "" ∧
      ret = lookupField fields s ∧ isUndef ret = false ∧
      obj2 = .object (setField fields s (.fn (.beforeWrap ret f))) := by
  cases hc : AOP.check obj method f with
  | error e => unfold AOP.before at h; rw [hc] at h; simp at h
  | ok u =>
    cases u
    obtain ⟨⟨fields, rfl⟩, ⟨s, rfl, hs⟩, -, hdef⟩ := check_ok_shape _ _ _ hc
    unfold AOP.before at h
    rw [hc] at h
    simp at h
    obtain ⟨h1, h2⟩ := h
    exact ⟨fields, s, rfl, rfl, hs, h2.symm, by
      rw [← h2]; exact hdef fields s rfl rfl, by rw [← h1, h2]⟩

/-- Anatomy of a successful `AOP.after` (as for `before`). -/
theorem after_ok_shape (obj : Value) (method : Option String) (f : Value)
    (obj2 ret : Value) (h : AOP.after obj method f = .ok (obj2, ret)) :
    ∃ fields s, obj = .object fields ∧ method = some s ∧ s ≠ "" ∧
      ret = lookupField fields s ∧ isUndef ret = false ∧
      obj2 = .object (setField fields s (.fn (.afterWrap ret f))) := by
  cases hc : AOP.check obj method f with
  | error e => unfold AOP.after at h; rw [hc] at h; simp at h
  | ok u =>
    cases u
    obtain ⟨⟨fields, rfl⟩, ⟨s, rfl, hs⟩, -, hdef⟩ := check_ok_shape _ _ _ hc
    unfold AOP.after at h
    rw [hc] at h
    simp at h
    obtain ⟨h1, h2⟩ := h
    exact ⟨fields, s, rfl, rfl, hs, h2.symm, by
      rw [← h2]; exact hdef fields s rfl rfl, by rw [← h1, h2]⟩

/-- Anatomy of a successful `AOP.handle` (as for `before`). -/
theorem handle_ok_shape (obj : Value) (method : Option String) (f : Value)
    (obj2 ret : Value) (h : AOP.handle obj method f = .ok (obj2, ret)) :
    ∃ fields s, obj = .object fields ∧ method = some s ∧ s ≠ "" ∧
      ret = lookupField fields s ∧ isUndef ret = false ∧
      obj2 = .object (setField fields s (.fn (.handleWrap ret f))) := by
  cases hc : AOP.check obj method f with
  | error e => unfold AOP.handle at h; rw [hc] at h; simp at h
  | ok u =>
    cases u
    obtain ⟨⟨fields, rfl⟩, ⟨s, rfl, hs⟩, -, hdef⟩ := check_ok_shape _ _ _ hc
    unfold AOP.handle at h
    rw [hc] at h
    simp at h
    obtain ⟨h1, h2⟩ := h
    exact ⟨fields, s, rfl, rfl, hs, h2.symm, by
      rw [← h2]; exact hdef fields s rfl rfl, by rw [← h1, h2]⟩

/-- Anatomy of a successful `AOP.around` (as for `before`). -/
theorem around_ok_shape (obj : Value) (method : Option String) (f : Value)
    (obj2 ret : Value) (h : AOP.around obj method f = .ok (obj2, ret)) :
    ∃ fields s, obj = .object fields ∧ method = some s ∧ s ≠ "" ∧
      ret = lookupField fields s ∧ isUndef ret = false ∧
      obj2 = .object (setField fields s (.fn (.aroundWrap ret f))) := by
  cases hc : AOP.check obj method f with
  | error e => unfold AOP.around at h; rw [hc] at h; simp at h
  | ok u =>
    cases u
    obtain ⟨⟨fields, rfl⟩, ⟨s, rfl, hs⟩, -, hdef⟩ := check_ok_shape _ _ _ hc
    unfold AOP.around at h
    rw [hc] at h
    simp at h
    obtain ⟨h1, h2⟩ := h
    exact ⟨fields, s, rfl, rfl, hs, h2.symm, by
      rw [← h2]; exact hdef fields s rfl rfl, by rw [← h1, h2]⟩

/-- `check` never produces the `InvalidProceed` constant. -/
theorem check_error_not_proceed (obj : Value) (method : Option String)
    (f : Value) (e : Value) (h : AOP.check obj method f = .error e) :
    isProceedErr e = false := by
  unfold AOP.check at h
  by_cases hobj : typeofV obj = "object"
  · rw [if_neg (by simp [hobj])] at h
    by_cases hf : typeofV f = "function"
    · rw [if_neg (by simp [hf])] at h
      by_cases hm : nameFalsy method = true
      · rw [if_pos hm] at h
        simp only [Except.error.injEq] at h
        subst h
        rfl
      · rw [if_neg hm] at h
        cases hg : getProp obj (method.getD "") with
        | error e2 =>
          rw [hg] at h
          simp only [Except.error.injEq] at h
          subst h
          cases obj <;> simp [getProp] at hg <;> (subst hg; rfl)
        | ok v =>
          rw [hg] at h
          dsimp only at h
          by_cases hu : isUndef v = true
          · rw [if_pos hu] at h
            simp only [Except.error.injEq] at h
            subst h
            rfl
          · rw [if_neg hu] at h
            simp at h
    · rw [if_pos hf] at h
      simp only [Except.error.injEq] at h
      subst h
      rfl
  · rw [if_pos hobj] at h
    simp only [Except.error.injEq] at h
    subst h
    rfl

/-! ## Helper lemmas for the `InvalidProceed` dead-code claim -/

/-- The head (first argument) of a `vOk` argument list is `vOk`. -/
theorem vOk_headD (args : List Value) (h : vOkList args = true) :
    vOk (args.headD .undef) = true := by
  cases args with
  | nil => simp [vOk]
  | cons a as =>
    rw [vOkList, Bool.and_eq_true] at h
    simpa using h.1

/-- The second argument of a `vOk` argument list is `vOk`. -/
theorem vOk_getD1 (args : List Value) (h : vOkList args = true) :
    vOk (args.getD 1 .undef) = true := by
  match args with
  | [] => simp [vOk]
  | [a] => simp [vOk]
  | a :: b :: rest =>
    have h2 : vOk b = true := by
      rw [vOkList, Bool.and_eq_true] at h
      have hrest := h.2
      rw [vOkList, Bool.and_eq_true] at hrest
      exact hrest.1
    simpa using h2

/-- The `before` dispatch preserves `vOk` argument lists. -/
theorem vOkList_beforeArgsOf (tmp : Value) (args : List Value)
    (ht : vOk tmp = true) (ha : vOkList args = true) :
    vOkList (beforeArgsOf tmp args) = true := by
  cases tmp with
  | undef => simpa [beforeArgsOf] using ha
  | arr xs => simpa [beforeArgsOf, vOk] using ht
  | vnull => simp [beforeArgsOf, vOkList, vOk]
  | bool b => simp [beforeArgsOf, vOkList, vOk]
  | num n => simp [beforeArgsOf, vOkList, vOk]
  | str s => simp [beforeArgsOf, vOkList, vOk]
  | errv k => simp [beforeArgsOf, vOkList, vOk]
  | object fs => simpa [beforeArgsOf, vOkList, vOk] using ht
  | fn c => simpa [beforeArgsOf, vOkList, vOk] using ht

/-- The evaluator originates no `InvalidProceed` throw: on `vOk` inputs,
every outcome is `resOk`, i.e. a thrown value is never the
`AOP.InvalidProceed` constant unless a `throwFn` primitive in the inputs
carries it (and there is none, by `vOk`). -/
theorem applyFn_resOk (fuel : Nat) :
    ∀ (f recv : Value) (args : List Value), vOk f = true → vOkList args = true →
      resOk (applyFn fuel f recv args).1 = true := by
  induction fuel with
  | zero =>
    intro f recv args _ _
    simp [applyFn, resOk]
  | succ fuel ih =>
    intro f recv args hf hargs
    cases f with
    | undef => simp [applyFn, resOk, isProceedErr, vOk]
    | vnull => simp [applyFn, resOk, isProceedErr, vOk]
    | bool b => simp [applyFn, resOk, isProceedErr, vOk]
    | num n => simp [applyFn, resOk, isProceedErr, vOk]
    | str s => simp [applyFn, resOk, isProceedErr, vOk]
    | arr xs => simp [applyFn, resOk, isProceedErr, vOk]
    | object fs => simp [applyFn, resOk, isProceedErr, vOk]
    | errv k => simp [applyFn, resOk, isProceedErr, vOk]
    | fn c =>
      rw [vOk] at hf
      cases c with
      | prim p =>
        rw [cOk] at hf
        cases p with
        | constFn v =>
          rw [pOk] at hf
          simp [applyFn, resOk, hf]
        | throwFn e =>
          rw [pOk] at hf
          simp only [applyFn, resOk]
          exact hf
        | greet =>
          simp only [applyFn]
          rcases hh : args.headD .undef with _ | _ | b | n | s | xs | fs | k | c2 <;>
            simp [resOk, vOk]
        | upper =>
          simp only [applyFn]
          rcases hh : args.headD .undef with _ | _ | b | n | s | xs | fs | k | c2 <;>
            simp [resOk, vOk]
        | callArg0 =>
          have h0 : vOk (args.headD .undef) = true := vOk_headD args hargs
          have h1 : vOk (args.getD 1 .undef) = true := vOk_getD1 args hargs
          have hrest : vOkList
              (match args.getD 1 .undef with
               | .arr xs => xs
               | _ => []) = true := by
            rcases hg : args.getD 1 .undef with _ | _ | b | n | s | xs | fs | k | c2 <;>
              simp [vOkList]
            rw [hg] at h1
            rw [vOk] at h1
            exact h1
          simp only [applyFn]
          exact ih (args.headD .undef) recv _ h0 hrest
      | beforeWrap old adv =>
        rw [cOk, Bool.and_eq_true] at hf
        have hadv := ih adv recv args hf.2 hargs
        rcases hr : applyFn fuel adv recv args with ⟨r1, t1⟩
        rw [hr] at hadv
        cases r1 with
        | ret tmp =>
          have htmp : vOk tmp = true := by simpa [resOk] using hadv
          have hnext := ih old recv (beforeArgsOf tmp args) hf.1
            (vOkList_beforeArgsOf tmp args htmp hargs)
          simpa [applyFn, hr] using hnext
        | thrown e =>
          simp only [applyFn, hr]
          simpa [resOk] using hadv
        | diverge => simp [applyFn, hr, resOk]
      | afterWrap old adv =>
        rw [cOk, Bool.and_eq_true] at hf
        have hold := ih old recv args hf.1 hargs
        rcases hr : applyFn fuel old recv args with ⟨r1, t1⟩
        rw [hr] at hold
        cases r1 with
        | ret tmp =>
          have htmp : vOk tmp = true := by simpa [resOk] using hold
          have hnext := ih adv recv [tmp] hf.2 (by simp [vOkList, htmp])
          simpa [applyFn, hr] using hnext
        | thrown e =>
          simp only [applyFn, hr]
          simpa [resOk] using hold
        | diverge => simp [applyFn, hr, resOk]
      | handleWrap old adv =>
        rw [cOk, Bool.and_eq_true] at hf
        have hold := ih old recv args hf.1 hargs
        rcases hr : applyFn fuel old recv args with ⟨r1, t1⟩
        rw [hr] at hold
        cases r1 with
        | ret v => simp [applyFn, hr, resOk, vOk]
        | thrown e =>
          have he : vOk e = true := by
            rw [resOk, Bool.and_eq_true] at hold
            exact hold.2
          have hnext := ih adv recv [e, .arr args] hf.2
            (by simp [vOkList, he, vOk, hargs])
          rcases hn : applyFn fuel adv recv [e, .arr args] with ⟨r2, t2⟩
          rw [hn] at hnext
          cases r2 with
          | ret v2 => simp [applyFn, hr, hn, resOk, vOk]
          | thrown e2 =>
            simp only [applyFn, hr, hn]
            simpa [resOk] using hnext
          | diverge => simp [applyFn, hr, hn, resOk]
        | diverge => simp [applyFn, hr, resOk]
      | aroundWrap old adv =>
        rw [cOk, Bool.and_eq_true] at hf
        have hnext := ih adv recv [old, .arr args] hf.2
          (by simp [vOkList, hf.1, vOk, hargs])
        simpa [applyFn] using hnext

/-! ## The claims -/

/-- C1: for every method wrapped by `before` and every invocation with
argument list `args` and receiver `recv` whose advice returns `tmp`: the
advice is called first (its call trace heads the wrapper's trace, with the
unmodified arguments and receiver), the original is then invoked with
`beforeArgsOf tmp args` — the unmodified arguments when `tmp` is
`undefined`, `tmp`'s elements when it is an `Array`, `[tmp]` otherwise —
and the wrapper's outcome is exactly the original's outcome. -/
theorem before_wrapped_spec (fuel : Nat) (old adv recv : Value)
    (args : List Value) (tmp : Value) (t1 : List CallEvent)
    (hadv : applyFn (fuel+1) adv recv args = (.ret tmp, t1)) :
    t1.head? = some ⟨adv, recv, args⟩ ∧
    applyFn (fuel+1+1) (.fn (.beforeWrap old adv)) recv args =
      ((applyFn (fuel+1) old recv (beforeArgsOf tmp args)).1,
       ⟨.fn (.beforeWrap old adv), recv, args⟩ ::
         (t1 ++ (applyFn (fuel+1) old recv (beforeArgsOf tmp args)).2)) :=
  ⟨trace_head_of_ret fuel adv recv args tmp t1 hadv,
   beforeWrap_step fuel old adv recv args tmp t1 hadv⟩

/-- Witness for C1: the spec's `greet`/`toUpperCase` example, advice
returning the single non-sequence value `"ANN"`. -/
theorem before_wrapped_spec_witness :
    applyFn 2 (.fn (.prim .upper)) .undef [.str "ann"]
        = (.ret (.str "ANN"), [⟨.fn (.prim .upper), .undef, [.str "ann"]⟩]) ∧
    (([⟨.fn (.prim .upper), .undef, [.str "ann"]⟩] :
        List CallEvent).head? = some ⟨.fn (.prim .upper), .undef, [.str "ann"]⟩ ∧
     applyFn 3 (.fn (.beforeWrap (.fn (.prim .greet)) (.fn (.prim .upper))))
         .undef [.str "ann"]
       = ((applyFn 2 (.fn (.prim .greet)) .undef
             (beforeArgsOf (.str "ANN") [.str "ann"])).1,
          ⟨.fn (.beforeWrap (.fn (.prim .greet)) (.fn (.prim .upper))),
             .undef, [.str "ann"]⟩ ::
            ([⟨.fn (.prim .upper), .undef, [.str "ann"]⟩] ++
             (applyFn 2 (.fn (.prim .greet)) .undef
                (beforeArgsOf (.str "ANN") [.str "ann"])).2))) :=
  ⟨rfl, before_wrapped_spec 1 (.fn (.prim .greet)) (.fn (.prim .upper)) .undef
      [.str "ann"] (.str "ANN") [⟨.fn (.prim .upper), .undef, [.str "ann"]⟩] rfl⟩

/-- C5: for every method wrapped by `after` and every invocation with
argument list `args` and receiver `recv` whose original returns `v`: the
original is called first with the unmodified arguments and receiver (its
call heads the trace), the advice is then called with the single argument
`v`, and the wrapper's outcome is exactly the advice's outcome. -/
theorem after_wrapped_spec (fuel : Nat) (old adv recv : Value)
    (args : List Value) (v : Value) (t1 : List CallEvent)
    (hold : applyFn (fuel+1) old recv args = (.ret v, t1)) :
    t1.head? = some ⟨old, recv, args⟩ ∧
    applyFn (fuel+1+1) (.fn (.afterWrap old adv)) recv args =
      ((applyFn (fuel+1) adv recv [v]).1,
       ⟨.fn (.afterWrap old adv), recv, args⟩ ::
         (t1 ++ (applyFn (fuel+1) adv recv [v]).2)) :=
  ⟨trace_head_of_ret fuel old recv args v t1 hold,
   afterWrap_step fuel old adv recv args v t1 hold⟩

/-- Witness for C5: `greet` wrapped by an `upper` advice; the original
returns `"Hello, ann"` and the advice receives exactly that value. -/
theorem after_wrapped_spec_witness :
    applyFn 2 (.fn (.prim .greet)) .undef [.str "ann"]
        = (.ret (.str "Hello, ann"),
           [⟨.fn (.prim .greet), .undef, [.str "ann"]⟩]) ∧
    (([⟨.fn (.prim .greet), .undef, [.str "ann"]⟩] :
        List CallEvent).head? = some ⟨.fn (.prim .greet), .undef, [.str "ann"]⟩ ∧
     applyFn 3 (.fn (.afterWrap (.fn (.prim .greet)) (.fn (.prim .upper))))
         .undef [.str "ann"]
       = ((applyFn 2 (.fn (.prim .upper)) .undef [.str "Hello, ann"]).1,
          ⟨.fn (.afterWrap (.fn (.prim .greet)) (.fn (.prim .upper))),
             .undef, [.str "ann"]⟩ ::
            ([⟨.fn (.prim .greet), .undef, [.str "ann"]⟩] ++
             (applyFn 2 (.fn (.prim .upper)) .undef [.str "Hello, ann"]).2))) :=
  ⟨rfl, after_wrapped_spec 1 (.fn (.prim .greet)) (.fn (.prim .upper)) .undef
      [.str "ann"] (.str "Hello, ann")
      [⟨.fn (.prim .greet), .undef, [.str "ann"]⟩] rfl⟩

/-- C3: for every method wrapped by `around` and every invocation: the
advice is called with exactly the two arguments `old` (the captured
original member) and the argument list, and the wrapper's outcome is
exactly the advice's outcome — the advice (universally quantified here)
may invoke the original zero, one or many times. -/
theorem around_wrapped_spec (fuel : Nat) (old recv : Value) (c : Callable)
    (args : List Value) :
    applyFn (fuel+1+1) (.fn (.aroundWrap old (.fn c))) recv args =
      ((applyFn (fuel+1) (.fn c) recv [old, .arr args]).1,
       ⟨.fn (.aroundWrap old (.fn c)), recv, args⟩ ::
         (applyFn (fuel+1) (.fn c) recv [old, .arr args]).2) ∧
    (applyFn (fuel+1) (.fn c) recv [old, .arr args]).2.head?
      = some ⟨.fn c, recv, [old, .arr args]⟩ :=
  ⟨aroundWrap_step (fuel+1) old (.fn c) recv args,
   applyFn_fn_trace_head fuel c recv [old, .arr args]⟩

/-- C2: for every method wrapped by `handle` (with a callable advice, as
validation guarantees) and every invocation: if the original throws `e`,
the advice is invoked with the two arguments `e` and the argument list
(its call heads its trace segment) and the wrapper's outcome is `undefined`
when the advice returns (the original's throw never propagates; only a
throw from the advice itself does); if the original returns normally, the
advice is not invoked (the wrapper's trace is just its own event and the
original's) and the wrapper returns `undefined`, discarding the original's
return value. -/
theorem handle_wrapped_spec (fuel : Nat) (old recv : Value) (c : Callable)
    (args : List Value) :
    (∀ e t1, applyFn (fuel+1) old recv args = (.thrown e, t1) →
       applyFn (fuel+1+1) (.fn (.handleWrap old (.fn c))) recv args =
         ((match (applyFn (fuel+1) (.fn c) recv [e, .arr args]).1 with
           | .ret _ => Res.ret .undef
           | r => r),
          ⟨.fn (.handleWrap old (.fn c)), recv, args⟩ ::
            (t1 ++ (applyFn (fuel+1) (.fn c) recv [e, .arr args]).2)) ∧
       (applyFn (fuel+1) (.fn c) recv [e, .arr args]).2.head?
         = some ⟨.fn c, recv, [e, .arr args]⟩) ∧
    (∀ v t1, applyFn (fuel+1) old recv args = (.ret v, t1) →
       applyFn (fuel+1+1) (.fn (.handleWrap old (.fn c))) recv args =
         (.ret .undef, ⟨.fn (.handleWrap old (.fn c)), recv, args⟩ :: t1)) :=
  ⟨fun e t1 h =>
    ⟨handleWrap_step_thrown fuel old (.fn c) recv args e t1 h,
     applyFn_fn_trace_head fuel c recv [e, .arr args]⟩,
   fun v t1 h => handleWrap_step_ret fuel old (.fn c) recv args v t1 h⟩

/-- Witness for C2: a throwing original hands `("boom", [4])` to the
advice and the wrapper returns `undefined`; a returning original (value
`7`) never reaches the advice and the wrapper also returns `undefined`. -/
theorem handle_wrapped_spec_witness :
    (applyFn 2 (.fn (.prim (.throwFn (.str "boom")))) .undef [.num 4]
        = (.thrown (.str "boom"),
           [⟨.fn (.prim (.throwFn (.str "boom"))), .undef, [.num 4]⟩]) ∧
     applyFn 3 (.fn (.handleWrap (.fn (.prim (.throwFn (.str "boom"))))
          (.fn (.prim (.constFn (.num 9)))))) .undef [.num 4]
        = (.ret .undef,
           [⟨.fn (.handleWrap (.fn (.prim (.throwFn (.str "boom"))))
               (.fn (.prim (.constFn (.num 9))))), .undef, [.num 4]⟩,
            ⟨.fn (.prim (.throwFn (.str "boom"))), .undef, [.num 4]⟩,
            ⟨.fn (.prim (.constFn (.num 9))), .undef,
               [.str "boom", .arr [.num 4]]⟩])) ∧
    (applyFn 2 (.fn (.prim (.constFn (.num 7)))) .undef []
        = (.ret (.num 7), [⟨.fn (.prim (.constFn (.num 7))), .undef, []⟩]) ∧
     applyFn 3 (.fn (.handleWrap (.fn (.prim (.constFn (.num 7))))
          (.fn (.prim (.constFn (.num 9)))))) .undef []
        = (.ret .undef,
           [⟨.fn (.handleWrap (.fn (.prim (.constFn (.num 7))))
               (.fn (.prim (.constFn (.num 9))))), .undef, []⟩,
            ⟨.fn (.prim (.constFn (.num 7))), .undef, []⟩])) :=
  ⟨⟨rfl,
    ((handle_wrapped_spec 1 (.fn (.prim (.throwFn (.str "boom")))) .undef
        (.prim (.constFn (.num 9))) [.num 4]).1 (.str "boom")
        [⟨.fn (.prim (.throwFn (.str "boom"))), .undef, [.num 4]⟩] rfl).1⟩,
   ⟨rfl,
    (handle_wrapped_spec 1 (.fn (.prim (.constFn (.num 7)))) .undef
        (.prim (.constFn (.num 9))) []).2 (.num 7)
        [⟨.fn (.prim (.constFn (.num 7))), .undef, []⟩] rfl⟩⟩

/-- C4: for each of the four wrap operations, the raised error is decided
by the first failing check in the order object check, callable check,
method-existence check: a non-object target yields `InvalidObject`
whatever the advice; an object target with non-callable advice yields
`InvalidAspect`; with both fine, a falsy (absent/empty) name or an
undefined member yields `InvalidMethod`; and every error any operation
raises is already the validator's error, raised before any mutation. -/
theorem validation_order_spec (obj : Value) (method : Option String)
    (f : Value) :
    (typeofV obj ≠ "object" →
       AOP.before obj method f = .error AOP.InvalidObject ∧
       AOP.after obj method f = .error AOP.InvalidObject ∧
       AOP.handle obj method f = .error AOP.InvalidObject ∧
       AOP.around obj method f = .error AOP.InvalidObject) ∧
    (typeofV obj = "object" → typeofV f ≠ "function" →
       AOP.before obj method f = .error AOP.InvalidAspect ∧
       AOP.after obj method f = .error AOP.InvalidAspect ∧
       AOP.handle obj method f = .error AOP.InvalidAspect ∧
       AOP.around obj method f = .error AOP.InvalidAspect) ∧
    (typeofV obj = "object" → typeofV f = "function" →
       nameFalsy method = true →
       AOP.before obj method f = .error AOP.InvalidMethod ∧
       AOP.after obj method f = .error AOP.InvalidMethod ∧
       AOP.handle obj method f = .error AOP.InvalidMethod ∧
       AOP.around obj method f = .error AOP.InvalidMethod) ∧
    (∀ s, method = some s → s ≠ "" → typeofV obj = "object" →
       typeofV f = "function" → getProp obj s = .ok .undef →
       AOP.before obj method f = .error AOP.InvalidMethod ∧
       AOP.after obj method f = .error AOP.InvalidMethod ∧
       AOP.handle obj method f = .error AOP.InvalidMethod ∧
       AOP.around obj method f = .error AOP.InvalidMethod) ∧
    (∀ e, AOP.before obj method f = .error e →
       AOP.check obj method f = .error e) ∧
    (∀ e, AOP.after obj method f = .error e →
       AOP.check obj method f = .error e) ∧
    (∀ e, AOP.handle obj method f = .error e →
       AOP.check obj method f = .error e) ∧
    (∀ e, AOP.around obj method f = .error e →
       AOP.check obj method f = .error e) := by
  refine ⟨fun h => ?_, fun hobj hf => ?_, fun hobj hf hm => ?_,
    fun s hsome hs hobj hf hget => ?_,
    fun e h => (before_error_iff obj method f e).1 h,
    fun e h => (after_error_iff obj method f e).1 h,
    fun e h => (handle_error_iff obj method f e).1 h,
    fun e h => (around_error_iff obj method f e).1 h⟩
  · have hc := check_error_object obj method f h
    exact ⟨(before_error_iff _ _ _ _).2 hc, (after_error_iff _ _ _ _).2 hc,
      (handle_error_iff _ _ _ _).2 hc, (around_error_iff _ _ _ _).2 hc⟩
  · have hc := check_error_aspect obj method f hobj hf
    exact ⟨(before_error_iff _ _ _ _).2 hc, (after_error_iff _ _ _ _).2 hc,
      (handle_error_iff _ _ _ _).2 hc, (around_error_iff _ _ _ _).2 hc⟩
  · have hc := check_error_falsy obj method f hobj hf hm
    exact ⟨(before_error_iff _ _ _ _).2 hc, (after_error_iff _ _ _ _).2 hc,
      (handle_error_iff _ _ _ _).2 hc, (around_error_iff _ _ _ _).2 hc⟩
  · subst hsome
    have hc := check_error_undef_member obj s f hobj hf hs hget
    exact ⟨(before_error_iff _ _ _ _).2 hc, (after_error_iff _ _ _ _).2 hc,
      (handle_error_iff _ _ _ _).2 hc, (around_error_iff _ _ _ _).2 hc⟩

/-- Witness for C4: each of the three error kinds raised at a concrete
input, one operation per kind plus the undefined-member case. -/
theorem validation_order_spec_witness :
    AOP.before (.num 0) (some "g") (.fn (.prim .upper))
      = .error AOP.InvalidObject ∧
    AOP.after (.object []) (some "g") (.num 1) = .error AOP.InvalidAspect ∧
    AOP.handle (.object []) none (.fn (.prim .upper))
      = .error AOP.InvalidMethod ∧
    AOP.around (.object []) (some "g") (.fn (.prim .upper))
      = .error AOP.InvalidMethod :=
  ⟨((validation_order_spec (.num 0) (some "g") (.fn (.prim .upper))).1
      (by decide)).1,
   (((validation_order_spec (.object []) (some "g") (.num 1)).2.1
      rfl (by decide))).2.1,
   (((validation_order_spec (.object []) none (.fn (.prim .upper))).2.2.1
      rfl rfl rfl)).2.2.1,
   (((validation_order_spec (.object []) (some "g")
      (.fn (.prim .upper))).2.2.2.1 "g" rfl (by decide) rfl rfl rfl)).2.2.2⟩

/-- C6: a wrap call that succeeds returns exactly the member installed at
`target[methodName]` immediately prior, and the installed wrapper's
closure references that captured member unchanged. -/
theorem wrap_returns_prior_spec (fields : List (String × Value)) (s : String)
    (f : Value) :
    (∀ obj2 ret, AOP.before (.object fields) (some s) f = .ok (obj2, ret) →
       ret = lookupField fields s ∧
       obj2 = .object (setField fields s (.fn (.beforeWrap ret f)))) ∧
    (∀ obj2 ret, AOP.after (.object fields) (some s) f = .ok (obj2, ret) →
       ret = lookupField fields s ∧
       obj2 = .object (setField fields s (.fn (.afterWrap ret f)))) ∧
    (∀ obj2 ret, AOP.handle (.object fields) (some s) f = .ok (obj2, ret) →
       ret = lookupField fields s ∧
       obj2 = .object (setField fields s (.fn (.handleWrap ret f)))) ∧
    (∀ obj2 ret, AOP.around (.object fields) (some s) f = .ok (obj2, ret) →
       ret = lookupField fields s ∧
       obj2 = .object (setField fields s (.fn (.aroundWrap ret f)))) := by
  refine ⟨fun obj2 ret h => ?_, fun obj2 ret h => ?_,
    fun obj2 ret h => ?_, fun obj2 ret h => ?_⟩
  · obtain ⟨fields2, s2, hfe, hse, -, hret, -, hobj2⟩ :=
      before_ok_shape _ _ _ _ _ h
    have hf2 : fields = fields2 := by injection hfe
    have hs2 : s = s2 := by injection hse
    subst hf2
    subst hs2
    exact ⟨hret, hobj2⟩
  · obtain ⟨fields2, s2, hfe, hse, -, hret, -, hobj2⟩ :=
      after_ok_shape _ _ _ _ _ h
    have hf2 : fields = fields2 := by injection hfe
    have hs2 : s = s2 := by injection hse
    subst hf2
    subst hs2
    exact ⟨hret, hobj2⟩
  · obtain ⟨fields2, s2, hfe, hse, -, hret, -, hobj2⟩ :=
      handle_ok_shape _ _ _ _ _ h
    have hf2 : fields = fields2 := by injection hfe
    have hs2 : s = s2 := by injection hse
    subst hf2
    subst hs2
    exact ⟨hret, hobj2⟩
  · obtain ⟨fields2, s2, hfe, hse, -, hret, -, hobj2⟩ :=
      around_ok_shape _ _ _ _ _ h
    have hf2 : fields = fields2 := by injection hfe
    have hs2 : s = s2 := by injection hse
    subst hf2
    subst hs2
    exact ⟨hret, hobj2⟩

/-- Witness for C6: wrapping the `greet` example returns the previously
installed `greet` member and installs the closure over exactly it. -/
theorem wrap_returns_prior_spec_witness :
    AOP.before (.object [("greet", .fn (.prim .greet))]) (some "greet")
        (.fn (.prim .upper))
      = .ok (.object [("greet",
            .fn (.beforeWrap (.fn (.prim .greet)) (.fn (.prim .upper))))],
          .fn (.prim .greet)) ∧
    ((.fn (.prim .greet) : Value)
        = lookupField [("greet", .fn (.prim .greet))] "greet" ∧
     (.object [("greet",
         .fn (.beforeWrap (.fn (.prim .greet)) (.fn (.prim .upper))))] : Value)
        = .object (setField [("greet", .fn (.prim .greet))] "greet"
            (.fn (.beforeWrap (.fn (.prim .greet)) (.fn (.prim .upper)))))) :=
  ⟨rfl, (wrap_returns_prior_spec [("greet", .fn (.prim .greet))] "greet"
      (.fn (.prim .upper))).1 _ _ rfl⟩

/-- The first `before` wrapper of the chained-wrap counterexample:
`m` (a constant function) wrapped with the `upper` advice. -/
def chainW1 : Value :=
  .fn (.beforeWrap (.fn (.prim (.constFn (.num 0)))) (.fn (.prim .upper)))

/-- The second `before` wrapper of the chained-wrap counterexample: the
first wrapper wrapped again with the `greet` advice. -/
def chainW2 : Value := .fn (.beforeWrap chainW1 (.fn (.prim .greet)))

/-- Counterexample to C7 as stated: chaining `before` with advice1
(`upper`) and then advice2 (`greet`) yields a method whose invocation
trace calls advice2 at position 1 and advice1 only later at position 3
(each exactly once) — the advices run in reverse wrap order, advice2
first, not advice1 first. -/
theorem before_chain_order_counterexample :
    AOP.before (.object [("m", .fn (.prim (.constFn (.num 0))))]) (some "m")
        (.fn (.prim .upper))
      = .ok (.object [("m", chainW1)], .fn (.prim (.constFn (.num 0)))) ∧
    AOP.before (.object [("m", chainW1)]) (some "m") (.fn (.prim .greet))
      = .ok (.object [("m", chainW2)], chainW1) ∧
    idxOfP calleeIsGreet (applyFn 5 chainW2 .undef [.num 7]).2 = some 1 ∧
    idxOfP calleeIsUpper (applyFn 5 chainW2 .undef [.num 7]).2 = some 3 ∧
    List.countP calleeIsGreet (applyFn 5 chainW2 .undef [.num 7]).2 = 1 ∧
    List.countP calleeIsUpper (applyFn 5 chainW2 .undef [.num 7]).2 = 1 :=
  ⟨rfl, rfl, rfl, rfl, rfl, rfl⟩

/-- C7 (amended): chaining two `before` wraps captures the first wrapper
as the second wrap's "original" (composition, not overwrite), and an
invocation of the final method runs the advices in reverse wrap order —
advice2 first on the incoming arguments, then advice1 on advice2's
dispatched argument list (`beforeArgsOf` covering all three arms:
`undefined`, `Array`, scalar), then the underlying original on advice1's
dispatched list, whose outcome is the final result. -/
theorem before_chain_compose_spec (fields : List (String × Value)) (s : String)
    (a1 a2 obj1 r1 obj2 r2 : Value)
    (h1 : AOP.before (.object fields) (some s) a1 = .ok (obj1, r1))
    (h2 : AOP.before obj1 (some s) a2 = .ok (obj2, r2)) :
    r1 = lookupField fields s ∧
    r2 = .fn (.beforeWrap r1 a1) ∧
    obj2 = .object (setField (setField fields s (.fn (.beforeWrap r1 a1))) s
        (.fn (.beforeWrap r2 a2))) ∧
    (∀ fuel recv args tmp1 tmp2 ta1 ta2,
       applyFn (fuel+1+1) a2 recv args = (.ret tmp2, ta2) →
       applyFn (fuel+1) a1 recv (beforeArgsOf tmp2 args) = (.ret tmp1, ta1) →
       ta2.head? = some ⟨a2, recv, args⟩ ∧
       ta1.head? = some ⟨a1, recv, beforeArgsOf tmp2 args⟩ ∧
       applyFn (fuel+1+1+1) (.fn (.beforeWrap r2 a2)) recv args =
         ((applyFn (fuel+1) r1 recv
             (beforeArgsOf tmp1 (beforeArgsOf tmp2 args))).1,
          ⟨.fn (.beforeWrap r2 a2), recv, args⟩ ::
            (ta2 ++ (⟨r2, recv, beforeArgsOf tmp2 args⟩ ::
              (ta1 ++ (applyFn (fuel+1) r1 recv
                 (beforeArgsOf tmp1 (beforeArgsOf tmp2 args))).2))))) := by
  obtain ⟨fields2, s2, hfe, hse, -, hret, -, hobj1⟩ :=
    before_ok_shape _ _ _ _ _ h1
  have hf2 : fields = fields2 := by injection hfe
  have hs2 : s = s2 := by injection hse
  subst hf2
  subst hs2
  subst hobj1
  obtain ⟨fields3, s3, hfe3, hse3, -, hret3, -, hobj2⟩ :=
    before_ok_shape _ _ _ _ _ h2
  have hf3 : setField fields s (.fn (.beforeWrap r1 a1)) = fields3 := by
    injection hfe3
  have hs3 : s = s3 := by injection hse3
  subst hf3
  subst hs3
  rw [lookupField_setField_self] at hret3
  subst hret3
  refine ⟨hret, rfl, hobj2, ?_⟩
  intro fuel recv args tmp1 tmp2 ta1 ta2 hta2 hta1
  refine ⟨trace_head_of_ret (fuel+1) a2 recv args tmp2 ta2 hta2,
    trace_head_of_ret fuel a1 recv (beforeArgsOf tmp2 args) tmp1 ta1 hta1, ?_⟩
  have step2 := beforeWrap_step (fuel+1) (.fn (.beforeWrap r1 a1)) a2 recv args
    tmp2 ta2 hta2
  have step1 := beforeWrap_step fuel r1 a1 recv (beforeArgsOf tmp2 args)
    tmp1 ta1 hta1
  rw [step1] at step2
  simpa using step2

/-- Witness for C7 (amended): the chained wrap of the counterexample
invoked on the string `"ann"`, so that both advices exercise the scalar
dispatch arm — `greet` (advice2) returns `"Hello, ann"`, which becomes
`upper` (advice1)'s sole argument, whose result `"HELLO, ANN"` becomes
the original's sole argument. -/
theorem before_chain_compose_spec_witness :
    AOP.before (.object [("m", .fn (.prim (.constFn (.num 0))))]) (some "m")
        (.fn (.prim .upper))
      = .ok (.object [("m",
            .fn (.beforeWrap (.fn (.prim (.constFn (.num 0))))
              (.fn (.prim .upper))))],
          .fn (.prim (.constFn (.num 0)))) ∧
    AOP.before (.object [("m",
        .fn (.beforeWrap (.fn (.prim (.constFn (.num 0))))
          (.fn (.prim .upper))))]) (some "m") (.fn (.prim .greet))
      = .ok (.object [("m",
            .fn (.beforeWrap
              (.fn (.beforeWrap (.fn (.prim (.constFn (.num 0))))
                (.fn (.prim .upper))))
              (.fn (.prim .greet))))],
          .fn (.beforeWrap (.fn (.prim (.constFn (.num 0))))
            (.fn (.prim .upper)))) ∧
    applyFn 4 (.fn (.beforeWrap
        (.fn (.beforeWrap (.fn (.prim (.constFn (.num 0))))
          (.fn (.prim .upper))))
        (.fn (.prim .greet)))) .undef [.str "ann"]
      = ((applyFn 2 (.fn (.prim (.constFn (.num 0)))) .undef
            (beforeArgsOf (.str "HELLO, ANN")
              (beforeArgsOf (.str "Hello, ann") [.str "ann"]))).1,
         ⟨.fn (.beforeWrap
             (.fn (.beforeWrap (.fn (.prim (.constFn (.num 0))))
               (.fn (.prim .upper))))
             (.fn (.prim .greet))), .undef, [.str "ann"]⟩ ::
           ([⟨.fn (.prim .greet), .undef, [.str "ann"]⟩] ++
            (⟨.fn (.beforeWrap (.fn (.prim (.constFn (.num 0))))
                (.fn (.prim .upper))), .undef,
                beforeArgsOf (.str "Hello, ann") [.str "ann"]⟩ ::
             ([⟨.fn (.prim .upper), .undef, [.str "Hello, ann"]⟩] ++
              (applyFn 2 (.fn (.prim (.constFn (.num 0)))) .undef
                (beforeArgsOf (.str "HELLO, ANN")
                  (beforeArgsOf (.str "Hello, ann") [.str "ann"]))).2)))) :=
  ⟨rfl, rfl,
   ((before_chain_compose_spec [("m", .fn (.prim (.constFn (.num 0))))] "m"
      (.fn (.prim .upper)) (.fn (.prim .greet)) _ _ _ _ rfl rfl).2.2.2 1 .undef
      [.str "ann"] (.str "HELLO, ANN") (.str "Hello, ann")
      [⟨.fn (.prim .upper), .undef, [.str "Hello, ann"]⟩]
      [⟨.fn (.prim .greet), .undef, [.str "ann"]⟩] rfl rfl).2.2⟩

/-- Counterexample to C8 as stated: a wrap over a member that is defined
but not callable (the number `5`) succeeds. -/
theorem wrap_noncallable_counterexample :
    AOP.before (.object [("x", .num 5)]) (some "x") (.fn (.prim .upper))
      = .ok (.object [("x",
            .fn (.beforeWrap (.num 5) (.fn (.prim .upper))))], .num 5) ∧
    typeofV (.num 5) ≠ "function" :=
  ⟨rfl, by decide⟩

/-- C8 (amended): a wrap that completes without an error resolved the
named member at wrap time to a *defined* value (never `undefined`) — but
not necessarily to a callable one, as the counterexample shows. -/
theorem wrap_defined_member_spec (obj : Value) (method : Option String)
    (f : Value) :
    (∀ obj2 ret, AOP.before obj method f = .ok (obj2, ret) →
       isUndef ret = false) ∧
    (∀ obj2 ret, AOP.after obj method f = .ok (obj2, ret) →
       isUndef ret = false) ∧
    (∀ obj2 ret, AOP.handle obj method f = .ok (obj2, ret) →
       isUndef ret = false) ∧
    (∀ obj2 ret, AOP.around obj method f = .ok (obj2, ret) →
       isUndef ret = false) := by
  refine ⟨fun obj2 ret h => ?_, fun obj2 ret h => ?_,
    fun obj2 ret h => ?_, fun obj2 ret h => ?_⟩
  · obtain ⟨-, -, -, -, -, -, hu, -⟩ := before_ok_shape _ _ _ _ _ h
    exact hu
  · obtain ⟨-, -, -, -, -, -, hu, -⟩ := after_ok_shape _ _ _ _ _ h
    exact hu
  · obtain ⟨-, -, -, -, -, -, hu, -⟩ := handle_ok_shape _ _ _ _ _ h
    exact hu
  · obtain ⟨-, -, -, -, -, -, hu, -⟩ := around_ok_shape _ _ _ _ _ h
    exact hu

/-- Witness for C8 (amended): the `greet` member returned by a successful
`around` wrap is defined. -/
theorem wrap_defined_member_spec_witness :
    AOP.around (.object [("greet", .fn (.prim .greet))]) (some "greet")
        (.fn (.prim .upper))
      = .ok (.object [("greet",
            .fn (.aroundWrap (.fn (.prim .greet)) (.fn (.prim .upper))))],
          .fn (.prim .greet)) ∧
    isUndef (.fn (.prim .greet)) = false :=
  ⟨rfl, (wrap_defined_member_spec (.object [("greet", .fn (.prim .greet))])
      (some "greet") (.fn (.prim .upper))).2.2.2 _ _ rfl⟩

/-- C9: no wrap operation ever raises the declared-but-unused
`InvalidProceed` constant, and no invocation of any value built without an
explicit `InvalidProceed`-throwing primitive (`vOk`) — in particular of
any installed wrapper over such values — ever throws it either. -/
theorem invalid_proceed_never_raised :
    (∀ obj method f e, AOP.before obj method f = .error e →
       isProceedErr e = false) ∧
    (∀ obj method f e, AOP.after obj method f = .error e →
       isProceedErr e = false) ∧
    (∀ obj method f e, AOP.handle obj method f = .error e →
       isProceedErr e = false) ∧
    (∀ obj method f e, AOP.around obj method f = .error e →
       isProceedErr e = false) ∧
    (∀ fuel f recv args e, vOk f = true → vOkList args = true →
       (applyFn fuel f recv args).1 = .thrown e → isProceedErr e = false) := by
  refine ⟨fun obj method f e h => check_error_not_proceed obj method f e
      ((before_error_iff obj method f e).1 h),
    fun obj method f e h => check_error_not_proceed obj method f e
      ((after_error_iff obj method f e).1 h),
    fun obj method f e h => check_error_not_proceed obj method f e
      ((handle_error_iff obj method f e).1 h),
    fun obj method f e h => check_error_not_proceed obj method f e
      ((around_error_iff obj method f e).1 h),
    fun fuel f recv args e hf ha hth => ?_⟩
  have hres := applyFn_resOk fuel f recv args hf ha
  rw [hth] at hres
  rw [resOk, Bool.and_eq_true] at hres
  simpa using hres.1

/-- Witness for C9: the errors actually raised — a validation error and
the host `TypeError` thrown by an invoked `vOk` value — are not
`InvalidProceed`. -/
theorem invalid_proceed_never_raised_witness :
    isProceedErr AOP.InvalidObject = false ∧
    isProceedErr (.errv .typeError) = false :=
  ⟨invalid_proceed_never_raised.1 (.num 0) none (.num 1) AOP.InvalidObject rfl,
   invalid_proceed_never_raised.2.2.2.2 1
     (.fn (.prim (.throwFn (.errv .typeError)))) .undef [] (.errv .typeError)
     (by simp [vOk, cOk, pOk, isProceedErr]) (by simp [vOkList]) rfl⟩

/-- Counterexample to C10 as stated: with a `null` target, a callable
advice and an *empty* method name, `before` does raise an error of the
declared taxonomy, namely `InvalidMethod` (the falsy-name test fires
before the member lookup would dereference `null`). -/
theorem null_target_empty_method_counterexample :
    AOP.before .vnull (some "") (.fn (.prim .upper))
      = .error AOP.InvalidMethod ∧
    inTaxonomy AOP.InvalidMethod = true :=
  ⟨rfl, rfl⟩

/-- C10 (amended): with a `null` target, a callable advice and a
*non-empty* method name, every wrap operation escapes validation with the
host `TypeError` raised by dereferencing `null` — a value outside the
declared error taxonomy (in particular, not `InvalidObject`: `typeof null`
is `"object"`). -/
theorem null_target_typeerror_spec (s : String) (c : Callable) (hs : s ≠ "") :
    (AOP.before .vnull (some s) (.fn c) = .error (.errv .typeError) ∧
     AOP.after .vnull (some s) (.fn c) = .error (.errv .typeError) ∧
     AOP.handle .vnull (some s) (.fn c) = .error (.errv .typeError) ∧
     AOP.around .vnull (some s) (.fn c) = .error (.errv .typeError)) ∧
    inTaxonomy (.errv .typeError) = false := by
  have hc : AOP.check .vnull (some s) (.fn c) = .error (.errv .typeError) := by
    simp [AOP.check, typeofV, nameFalsy, hs, getProp]
  exact ⟨⟨(before_error_iff _ _ _ _).2 hc, (after_error_iff _ _ _ _).2 hc,
    (handle_error_iff _ _ _ _).2 hc, (around_error_iff _ _ _ _).2 hc⟩, rfl⟩

/-- Witness for C10 (amended): the concrete null-target call raising the
out-of-taxonomy host `TypeError`. -/
theorem null_target_typeerror_spec_witness :
    AOP.before .vnull (some "greet") (.fn (.prim .upper))
      = .error (.errv .typeError) ∧
    inTaxonomy (.errv .typeError) = false :=
  ⟨((null_target_typeerror_spec "greet" (.prim .upper) (by decide)).1).1,
   (null_target_typeerror_spec "greet" (.prim .upper) (by decide)).2⟩

end JsAop
